import Mathlib

/-!
Verification development for `spec_kit.py`, a CLI tool managing a feature
workflow: feature numbering, slug derivation, config state, template copying,
plan-field extraction and regex-based patching of agent context files.

Strings are embedded as `List Char`.  Python regular-expression operations are
specialised to the literal patterns the source uses: each pattern is of the
form `LITERAL(.*?)LITERAL'` (DOTALL), so searching is leftmost splitting on the
two literals and `re.sub` is a left-to-right scan replacing non-overlapping
matches.  Substitution scans are written with an explicit fuel argument so that
every definition is structural (hence computable by `decide`/`rfl`); the
wrappers pass fuel `length + 1`, which is sufficient because every replaced
match consumes at least one character of the input (the literal head patterns
are never empty).
-/

set_option autoImplicit false

namespace SpecKit

/-- Strings of the Python program, embedded as lists of characters. -/
abbrev Str := List Char

/-- ASCII whitespace recognised by Python's `str.strip()`
(space, tab, newline, carriage return, vertical tab, form feed). -/
def isSpaceChar (c : Char) : Bool :=
  decide (c = ' ' ∨ c = '\t' ∨ c = '\n' ∨ c = '\r' ∨ c = '\x0b' ∨ c = '\x0c')

/-- Python `s.strip()`: drop leading and trailing whitespace. -/
def pyStrip (s : Str) : Str :=
  ((s.dropWhile isSpaceChar).reverse.dropWhile isSpaceChar).reverse

/-- Python `s.strip('-')`: drop leading and trailing hyphens. -/
def stripDashes (s : Str) : Str :=
  ((s.dropWhile (· == '-')).reverse.dropWhile (· == '-')).reverse

/-- Python `s.split(sep)` for a one-character separator: always returns at
least one piece, and empty pieces are kept. -/
def splitOnChar (sep : Char) : Str → List Str
  | [] => [[]]
  | c :: rest =>
    if c = sep then
      [] :: splitOnChar sep rest
    else
      match splitOnChar sep rest with
      | [] => [[c]]
      | p :: ps => (c :: p) :: ps

/-- Python `sep.join(pieces)` for a one-character separator. -/
def joinChar (sep : Char) (pieces : List Str) : Str :=
  List.intercalate [sep] pieces

/-- ASCII decimal digit test (`\d` of the source's regexes, ASCII fragment). -/
def isDigitChar (c : Char) : Bool :=
  decide ('0' ≤ c ∧ c ≤ '9')

/-- `[a-z0-9]` of the slug regex in `create_new_feature`. -/
def isLowerAlnum (c : Char) : Bool :=
  decide (('a' ≤ c ∧ c ≤ 'z') ∨ ('0' ≤ c ∧ c ≤ '9'))

/-- One character of `re.sub(r'[^a-z0-9]', '-', s)`. -/
def perCharRep (c : Char) : Char :=
  if isLowerAlnum c then c else '-'

/-- `re.sub(r'-+', '-', s)`: collapse each run of hyphens to a single hyphen. -/
def collapseDashes : Str → Str
  | [] => []
  | [c] => [c]
  | a :: b :: rest =>
    if a = '-' ∧ b = '-' then collapseDashes (b :: rest)
    else a :: collapseDashes (b :: rest)

/-- Modelled from the spec's words (step 4 of Feature Registry `create`):
"replace every run of non-`[a-z0-9]` characters with a single hyphen".
Each maximal run of non-alphanumeric characters becomes one hyphen, emitted
at the end of the run. -/
def runRep : Str → Str
  | [] => []
  | [c] => if isLowerAlnum c then [c] else ['-']
  | a :: b :: rest =>
    if isLowerAlnum a then a :: runRep (b :: rest)
    else if isLowerAlnum b then '-' :: runRep (b :: rest)
    else runRep (b :: rest)

/-- The slug computation of `FeatureManager.create_new_feature`
(lines 159-166 of `spec_kit.py`): lowercase, replace each character outside
`[a-z0-9]` by `-`, collapse runs of `-`, strip `-`, split on `-`, keep the
non-empty words, take the first 3, and rejoin with `-`. -/
def create_slug (desc : Str) : Str :=
  let s1 := (desc.map Char.toLower).map perCharRep
  let s2 := collapseDashes s1
  let s3 := stripDashes s2
  let ws := ((splitOnChar '-' s3).filter (fun w => w ≠ [])).take 3
  joinChar '-' ws

/-- Modelled from the spec's words: "lowercase the description, replace every
run of non-`[a-z0-9]` characters with a single hyphen, strip leading/trailing
hyphens, split on hyphens, keep the first up to 3 non-empty tokens, rejoin
with hyphens". -/
def slug_spec (desc : Str) : Str :=
  let r := runRep (desc.map Char.toLower)
  let r2 := stripDashes r
  joinChar '-' (((splitOnChar '-' r2).filter (fun w => w ≠ [])).take 3)

lemma isLowerAlnum_ne_dash {a : Char} (h : isLowerAlnum a = true) : a ≠ '-' := by
  intro e
  subst e
  exact absurd h (by decide)

lemma perCharRep_of_alnum {a : Char} (h : isLowerAlnum a = true) :
    perCharRep a = a := by
  simp [perCharRep, h]

lemma perCharRep_of_not_alnum {a : Char} (h : isLowerAlnum a = false) :
    perCharRep a = '-' := by
  simp [perCharRep, h]

/-- Replacing each non-alphanumeric character by `-` and then collapsing runs
of `-` is the same as replacing each maximal non-alphanumeric run by a single
`-`. -/
theorem collapseDashes_map_perCharRep (l : List Char) :
    collapseDashes (l.map perCharRep) = runRep l := by
  induction l with
  | nil => rfl
  | cons a t ih =>
    cases t with
    | nil =>
      cases ha : isLowerAlnum a with
      | true =>
        simp [collapseDashes, runRep, perCharRep_of_alnum ha, ha]
      | false =>
        simp [collapseDashes, runRep, perCharRep_of_not_alnum ha, ha]
    | cons b r =>
      cases ha : isLowerAlnum a with
      | true =>
        have hna : a ≠ '-' := isLowerAlnum_ne_dash ha
        simp only [List.map_cons, perCharRep_of_alnum ha] at ih ⊢
        simp [collapseDashes, runRep, ha, hna, ih]
      | false =>
        cases hb : isLowerAlnum b with
        | true =>
          have hnb : b ≠ '-' := isLowerAlnum_ne_dash hb
          simp only [List.map_cons, perCharRep_of_not_alnum ha,
            perCharRep_of_alnum hb] at ih ⊢
          simp [collapseDashes, runRep, ha, hb, hnb, ih]
        | false =>
          simp only [List.map_cons, perCharRep_of_not_alnum ha,
            perCharRep_of_not_alnum hb] at ih ⊢
          simp [collapseDashes, runRep, ha, hb, ih]

/-- The slug the code computes agrees with the spec's description of it,
for every description. -/
theorem create_slug_eq_slug_spec (desc : Str) :
    create_slug desc = slug_spec desc := by
  simp only [create_slug, slug_spec]
  rw [collapseDashes_map_perCharRep]

/-! ### Literal-pattern regular-expression operations

Every regex the patcher uses has the shape `HEAD(.*?)TAIL` (with `re.DOTALL`),
where `HEAD` and `TAIL` are literals.  Its leftmost match starts at the first
occurrence of `HEAD` and its non-greedy group ends at the first occurrence of
`TAIL` after that. -/

/-- Split `s` at the leftmost occurrence of `pat`:
`splitFirst pat s = some (a, b)` iff `s = a ++ pat ++ b` with `a` shortest. -/
def splitFirst (pat : Str) : Str → Option (Str × Str)
  | [] => if pat.isPrefixOf ([] : Str) then some ([], []) else none
  | c :: rest =>
    if pat.isPrefixOf (c :: rest) then some ([], (c :: rest).drop pat.length)
    else
      match splitFirst pat rest with
      | some (a, b) => some (c :: a, b)
      | none => none

theorem splitFirst_eq (pat : Str) :
    ∀ (s : Str) (a b : Str), splitFirst pat s = some (a, b) → s = a ++ pat ++ b := by
  intro s
  induction s with
  | nil =>
    intro a b h
    simp only [splitFirst] at h
    by_cases hp : pat.isPrefixOf ([] : Str)
    · rw [if_pos hp] at h
      have hpe : pat = [] := by
        cases pat with
        | nil => rfl
        | cons x xs => simp [List.isPrefixOf] at hp
      cases h
      simp [hpe]
    · rw [if_neg hp] at h
      cases h
  | cons c rest ih =>
    intro a b h
    simp only [splitFirst] at h
    by_cases hp : pat.isPrefixOf (c :: rest)
    · rw [if_pos hp] at h
      cases h
      have hpre : pat <+: c :: rest := by
        exact List.isPrefixOf_iff_prefix.mp hp
      obtain ⟨t, ht⟩ := hpre
      rw [← ht, List.nil_append, List.drop_left]
    · rw [if_neg hp] at h
      cases hsp : splitFirst pat rest with
      | none => rw [hsp] at h; cases h
      | some ab =>
        obtain ⟨a1, b1⟩ := ab
        rw [hsp] at h
        cases h
        have := ih a1 b hsp
        simp [this]

/-- Python's substring test `pat in s`: some occurrence of `pat` in `s`. -/
def containsSub (pat s : Str) : Bool :=
  (splitFirst pat s).isSome

/-- `re.search(HEAD ++ "(.*?)" ++ TAIL, s, re.DOTALL)`:
returns `(prefix-before-HEAD, group(1), text-after-the-match)`. -/
def searchSec (hd tl s : Str) : Option (Str × Str × Str) :=
  match splitFirst hd s with
  | none => none
  | some (pre, rest) =>
    match splitFirst tl rest with
    | none => none
    | some (body, post) => some (pre, body, post)

/-- Fuel-driven `str.replace(pat, rep)` (replaces all occurrences,
left to right). -/
def replaceAllF (pat rep : Str) : Nat → Str → Str
  | 0, s => s
  | fuel + 1, s =>
    match splitFirst pat s with
    | none => s
    | some (pre, post) => pre ++ rep ++ replaceAllF pat rep fuel post

/-- Python `s.replace(pat, rep)` for a non-empty `pat`.  Each replacement
consumes at least `pat.length ≥ 1` characters, so `s.length + 1` units of
fuel always suffice. -/
def replaceAll (pat rep s : Str) : Str :=
  replaceAllF pat rep (s.length + 1) s

/-- Fuel-driven `re.sub(HEAD ++ "(.*?)" ++ TAIL, GROUP1REPL, s, re.DOTALL)`
where the replacement text `rep` is a fixed string (the source always passes
`\1 ++ fixed ++ \2`, which for these patterns equals `HEAD ++ fixed ++ TAIL`):
replaces every non-overlapping match, scanning left to right. -/
def subSecF (hd tl rep : Str) : Nat → Str → Str
  | 0, s => s
  | fuel + 1, s =>
    match splitFirst hd s with
    | none => s
    | some (pre, rest) =>
      match splitFirst tl rest with
      | none => s
      | some (_, post) => pre ++ rep ++ subSecF hd tl rep fuel post

/-- `re.sub` for a `HEAD(.*?)TAIL` pattern with non-empty `hd`; fuel
`s.length + 1` always suffices since each match consumes `hd`. -/
def subSec (hd tl rep s : Str) : Str :=
  subSecF hd tl rep (s.length + 1) s

/-- The group-2 alternative `(\n\n|$)` of the Recent Changes pattern: walking
left to right, the non-greedy group(1) ends at the first position where either
`"\n\n"` follows (group(2) is `"\n\n"`), or the position is at the end of the
string, or just before a trailing final newline (group(2) is empty; Python's
`$` without `re.MULTILINE`).  Returns `(group1, group2, rest-after-match)`. -/
def splitNN : Str → Str × Str × Str
  | [] => ([], [], [])
  | '\n' :: '\n' :: rest => ([], ['\n', '\n'], rest)
  | ['\n'] => ([], [], ['\n'])
  | c :: rest =>
    let t := splitNN rest
    (c :: t.1, t.2.1, t.2.2)

/-- Fuel-driven `re.sub(r'(## Recent Changes\n)(.*?)(\n\n|$)', ...)`: each
match is rewritten to `hd ++ rep ++ group2`. -/
def subNNF (hd rep : Str) : Nat → Str → Str
  | 0, s => s
  | fuel + 1, s =>
    match splitFirst hd s with
    | none => s
    | some (pre, rest) =>
      let t := splitNN rest
      pre ++ hd ++ rep ++ t.2.1 ++ subNNF hd rep fuel t.2.2

/-- Wrapper with always-sufficient fuel (`hd` is never empty at call sites). -/
def subNN (hd rep s : Str) : Str :=
  subNNF hd rep (s.length + 1) s

/-! ### Decimal numbers -/

/-- One decimal digit as a character. -/
def digitChar (d : Nat) : Char := Char.ofNat (48 + d)

/-- Fuel-driven decimal rendering (most significant digit first). -/
def natCharsF : Nat → Nat → Str
  | 0, _ => []
  | fuel + 1, n =>
    if n < 10 then [digitChar n]
    else natCharsF fuel (n / 10) ++ [digitChar (n % 10)]

/-- Python `"%d" % n` for `n : Nat`: decimal digits, no sign.  `n + 1` units
of fuel always suffice (the recursion depth is the digit count). -/
def natChars (n : Nat) : Str := natCharsF (n + 1) n

/-- Python `f"{n:03d}"` for `n : Nat`: pad with leading zeros to width at
least 3; wider numbers are not truncated. -/
def pad3 (n : Nat) : Str :=
  let d := natChars n
  if d.length < 3 then List.replicate (3 - d.length) '0' ++ d else d

/-- Python `int(digit-string)`. -/
def digitsVal (ds : Str) : Nat :=
  ds.foldl (fun n c => 10 * n + (c.toNat - 48)) 0

/-- `re.match(r'^(\d+)', s)` followed by `int(group(1))`:
the maximal leading digit run, if non-empty. -/
def parseLeadingNat? (s : Str) : Option Nat :=
  match s.takeWhile isDigitChar with
  | [] => none
  | ds => some (digitsVal ds)

/-! ### Project state, feature numbering and feature creation

The relevant filesystem state of the tool is the listing of the `specs/`
directory (`none` when `specs/` does not exist; each entry carries an
is-directory flag, since `get_next_feature_number` and the listings filter on
`os.path.isdir`) together with the `current_feature` value of the JSON config
(`spec-kit.json`). -/

structure St where
  specsList : Option (List (Str × Bool))
  currentFeature : Option Str

/-- `ProjectManager.get_next_feature_number` (lines 74-89): scan the entries
of `specs/`; for each subdirectory whose name starts with digits, parse the
digit prefix; track the highest; return `highest + 1` (with `highest = 0`
when `specs/` is absent or no entry qualifies). -/
def get_next_feature_number (st : St) : Nat :=
  (match st.specsList with
   | none => 0
   | some es =>
     es.foldl
       (fun highest e =>
         if e.2 then
           match parseLeadingNat? e.1 with
           | some number => if number > highest then number else highest
           | none => highest
         else highest)
       0) + 1

/-- Modelled from the spec's words: "scan immediate subdirectories of
`specs/` (if present); for each whose name starts with one or more digits,
parse that numeric prefix; return `max(parsed) + 1`, or `1` if no
numeric-prefixed directory exists or `specs/` does not exist". -/
def spec_next_feature_number (st : St) : Nat :=
  match st.specsList with
  | none => 1
  | some es =>
    ((((es.filter (fun e => e.2)).map (fun e => e.1)).filterMap
        parseLeadingNat?).foldr max 0) + 1

/-- `os.makedirs(specs_dir, exist_ok=True)` on the `specs/` directory
itself (line 152): create it empty when absent. -/
def ensureSpecs (st : St) : St :=
  match st.specsList with
  | none => ⟨some [], st.currentFeature⟩
  | some _ => st

/-- `os.makedirs(feature_dir, exist_ok=True)` (line 173): register the
feature subdirectory, a no-op if it already exists. -/
def addFeatureDir (st : St) (name : Str) : St :=
  match st.specsList with
  | none => st
  | some es =>
    if es.any (fun e => e.1 = name ∧ e.2) then st
    else ⟨some (es ++ [(name, true)]), st.currentFeature⟩

/-- The feature name assembled at line 169: `f"{next_num:03d}-{words_str}"`. -/
def mkFeatureName (n : Nat) (desc : Str) : Str :=
  pad3 n ++ '-' :: create_slug desc

structure FeatResult where
  name : Str
  num : Str

/-- `FeatureManager.create_new_feature` (lines 143-182): reject blank
descriptions with `ValueError` before any side effect; otherwise ensure
`specs/`, compute the next number, build `NNN-slug`, create the feature
directory and store the name as the current feature in the config. -/
def create_new_feature (st : St) (desc : Str) :
    Except Str (St × FeatResult) :=
  if pyStrip desc = [] then
    .error ("Feature description cannot be empty").toList
  else
    let st1 := ensureSpecs st
    let n := get_next_feature_number st1
    let name := mkFeatureName n desc
    let st2 := addFeatureDir st1 name
    .ok (⟨st2.specsList, some name⟩, ⟨name, pad3 n⟩)

/-- `FeatureManager.check_feature_name` (lines 102-113): an empty (falsy)
name fails; otherwise the name must match `^[0-9]{3}-`. -/
def check_feature_name (name : Str) : Bool :=
  if name = [] then false
  else
    match name with
    | a :: b :: c :: d :: _ =>
      isDigitChar a && isDigitChar b && isDigitChar c && (d == '-')
    | _ => false

/-- `os.path.isdir(project_root/specs/name)`: the feature directory exists. -/
def featureDirExists (st : St) (name : Str) : Bool :=
  match st.specsList with
  | none => false
  | some es => es.any (fun e => e.1 == name && e.2)

/-- `SpecKit.set_current_feature` (lines 378-398): exit 1 (second component)
when the name fails validation or its directory is missing, leaving the state
untouched; otherwise write the name into the config and exit 0. -/
def speckit_set_current_feature (st : St) (name : Str) : St × Nat :=
  if check_feature_name name = false then (st, 1)
  else if featureDirExists st name = false then (st, 1)
  else (⟨st.specsList, some name⟩, 0)

/-! ### Files and template copying

A tiny filesystem for the template copier: a partial map from path strings to
file contents. -/

def FS : Type := Str → Option Str

def fsUpdate (fs : FS) (p v : Str) : FS :=
  fun q => if q = p then some v else fs q

/-- `pathlib.Path(p).touch()`: create an empty file when `p` is absent;
an existing file keeps its contents (only metadata changes). -/
def fsTouch (fs : FS) (p : Str) : FS :=
  match fs p with
  | some _ => fs
  | none => fsUpdate fs p []

/-- `os.path.join` for the always-relative second components used here. -/
def joinPath (a b : Str) : Str := a ++ '/' :: b

/-- `os.path.join(project_root, 'templates', template_name)` (line 212). -/
def templatePath (root tname : Str) : Str :=
  joinPath (joinPath root ("templates").toList) tname

/-- `FileManager.copy_template` (lines 209-222): when
`root/templates/name` exists, copy its bytes over `target` and return
`true`; otherwise print a warning on stderr (third component), `touch` the
target, and return `false`. -/
def copy_template (fs : FS) (root tname target : Str) :
    FS × Bool × List Str :=
  match fs (templatePath root tname) with
  | some bytes => (fsUpdate fs target bytes, true, [])
  | none =>
    (fsTouch fs target, false,
     [("Warning: Template not found at ").toList ++ templatePath root tname])

/-- `SpecKit.create_new_feature` (lines 311-341): blank description prints
usage and exits 1; a `ValueError` from the manager exits 1; otherwise the
spec template is copied into the new feature directory.  Returns the state,
the filesystem, and the exit status of the error paths (0 = fell through). -/
def speckit_create_new_feature (st : St) (fs : FS) (root desc : Str) :
    St × FS × Nat :=
  if pyStrip desc = [] then (st, fs, 1)
  else
    match create_new_feature st desc with
    | .error _ => (st, fs, 1)
    | .ok (st1, r) =>
      let featureDir := joinPath (joinPath root ("specs").toList) r.name
      let specFile := joinPath featureDir ("spec.md").toList
      let fs1 := (copy_template fs root ("spec-template.md").toList specFile).1
      (st1, fs1, 0)

/-! ### Plan-field extraction (`SpecKit.update_agent_context`, lines 485-512)

Each field is matched with `re.search(r'^\*\*Label\*\*: (.+)$', content,
re.MULTILINE)`: the first line starting with the literal `**Label**: ` and a
non-empty remainder; the group is the remainder of that line. -/

/-- Strip the literal prefix `p` from `s`, if present. -/
def dropPre : Str → Str → Option Str
  | [], s => some s
  | _ :: _, [] => none
  | p :: ps, c :: cs => if c = p then dropPre ps cs else none

/-- First line matching `^\*\*label\*\*: (.+)$` (MULTILINE), returning the
group: the non-empty remainder of the line after `**label**: `. -/
def fieldLine? (label : Str) : List Str → Option Str
  | [] => none
  | l :: rest =>
    match dropPre ('*' :: '*' :: label ++ '*' :: '*' :: ':' :: [' ']) l with
    | some v => if v = [] then fieldLine? label rest else some v
    | none => fieldLine? label rest

def clarificationMarker : Str := ("NEEDS CLARIFICATION").toList

structure PlanFields where
  lang : Str
  framework : Str
  testing : Str
  db : Str
  projectType : Str

/-- The five optional plan fields, as extracted at lines 485-512: a value
containing `NEEDS CLARIFICATION` leaves `new_lang` / `new_framework` /
`new_testing` / `new_db` at `""`; a Storage value containing `N/A` likewise
leaves `new_db` at `""`; the `Project Type` value is kept unconditionally. -/
def extract_plan_fields (content : Str) : PlanFields :=
  let lines := splitOnChar '\n' content
  let lang :=
    match fieldLine? ("Language/Version").toList lines with
    | some v => if containsSub clarificationMarker v then [] else pyStrip v
    | none => []
  let framework :=
    match fieldLine? ("Primary Dependencies").toList lines with
    | some v => if containsSub clarificationMarker v then [] else pyStrip v
    | none => []
  let testing :=
    match fieldLine? ("Testing").toList lines with
    | some v => if containsSub clarificationMarker v then [] else pyStrip v
    | none => []
  let db :=
    match fieldLine? ("Storage").toList lines with
    | some v =>
      if containsSub ("N/A").toList v || containsSub clarificationMarker v then []
      else pyStrip v
    | none => []
  let projectType :=
    match fieldLine? ("Project Type").toList lines with
    | some v => pyStrip v
    | none => []
  ⟨lang, framework, testing, db, projectType⟩

/-! ### Patching an existing agent context file
(`update_agent_file`, lines 570-649, existing-file branch)

The five patch steps, in source order: Active Technologies, Project
Structure, Commands, Recent Changes, "Last updated" date. -/

def techHd : Str := ("## Active Technologies\n").toList
def nnSep : Str := ('\n' :: ['\n'])
def structHd : Str := ("## Project Structure\n```\n").toList
def structTl : Str := ("\n```").toList
def frontendLine : Str := ("\nfrontend/src/ # Web UI").toList
def cmdBashHd : Str := ("## Commands\n```bash\n").toList
def cmdBashTl : Str := ("\n```").toList
def cmdPlainHd : Str := ("## Commands\n").toList
def recentHd : Str := ("## Recent Changes\n").toList

/-- `f"- {new_lang} + {new_framework} ({current_feature})"` (line 587). -/
def techLine (f : PlanFields) (feature : Str) : Str :=
  '-' :: ' ' :: f.lang ++ (" + ").toList ++ f.framework ++
    (" (").toList ++ feature ++ [')']

/-- `f"- {new_db} ({current_feature})"` (line 590). -/
def dbLine (f : PlanFields) (feature : Str) : Str :=
  '-' :: ' ' :: f.db ++ (" (").toList ++ feature ++ [')']

/-- Lines 577-596: append the new technology / storage lines to the
`## Active Technologies` section when the exact phrases are not already in
the matched section text; the rewrite is `str.replace` of the whole matched
section. -/
def techStep (f : PlanFields) (feature : Str) (content : Str) : Str :=
  match searchSec techHd nnSep content with
  | none => content
  | some (_, existing, _) =>
    let adds :=
      (if f.lang ≠ [] ∧ ¬(containsSub f.lang existing) then
        [techLine f feature] else []) ++
      (if f.db ≠ [] ∧ ¬(containsSub f.db existing) ∧ f.db ≠ ("N/A").toList then
        [dbLine f feature] else [])
    if adds ≠ [] then
      replaceAll (techHd ++ existing ++ nnSep)
        (techHd ++ (existing ++ '\n' :: joinChar '\n' adds) ++ nnSep) content
    else content

/-- Lines 598-606: only when the extracted project type is exactly `"web"`
and the whole file contains no `frontend/`, append `frontend/src/ # Web UI`
to the fenced `## Project Structure` block (if one matches). -/
def structStep (projectType : Str) (content : Str) : Str :=
  if projectType = ("web").toList ∧
      ¬(containsSub ("frontend/").toList content) then
    match searchSec structHd structTl content with
    | none => content
    | some (_, body, _) =>
      subSec structHd structTl
        (structHd ++ (body ++ frontendLine) ++ structTl) content
  else content

/-- Lines 618-623: the fixed command string appended for a recognised
language; other languages append nothing in the existing-file branch. -/
def cmdAddition (lang : Str) : Str :=
  if containsSub ("Python").toList lang then
    ("\ncd src && pytest && ruff check .").toList
  else if containsSub ("Rust").toList lang then
    ("\ncargo test && cargo clippy").toList
  else if containsSub ("JavaScript").toList lang ∨
      containsSub ("TypeScript").toList lang then
    ("\nnpm test && npm run lint").toList
  else []

/-- Lines 609-630: when a language was extracted and its marker comment
`# {new_lang}` is nowhere in the file, find the Commands section (fenced
`bash` form first, then the plain form), append the language's fixed command
string to its body, and substitute the section whose form matches
`"```bash" in content`. -/
def commandsStep (f : PlanFields) (content : Str) : Str :=
  if f.lang ≠ [] ∧ ¬(containsSub (('#' :: [' ']) ++ f.lang) content) then
    let m :=
      match searchSec cmdBashHd cmdBashTl content with
      | some r => some r
      | none => searchSec cmdPlainHd nnSep content
    match m with
    | none => content
    | some (_, body, _) =>
      let newCommands := body ++ cmdAddition f.lang
      if containsSub ("```bash").toList content then
        subSec cmdBashHd cmdBashTl (cmdBashHd ++ newCommands ++ cmdBashTl)
          content
      else
        subSec cmdPlainHd nnSep (cmdPlainHd ++ newCommands ++ nnSep) content
  else content

/-- `f"- {current_feature}: Added {new_lang} + {new_framework}"`
(line 639). -/
def changeEntry (f : PlanFields) (feature : Str) : Str :=
  '-' :: ' ' :: feature ++ (": Added ").toList ++ f.lang ++
    (" + ").toList ++ f.framework

/-- Line 636-637: the existing entries of the matched Recent Changes body:
strip the body, split into lines, strip each, keep the non-blank ones. -/
def cleanedChanges (body : Str) : List Str :=
  ((splitOnChar '\n' (pyStrip body)).map pyStrip).filter (fun c => c ≠ [])

/-- Lines 638-640: prepend the new entry, then keep only the first 3. -/
def newChangesList (f : PlanFields) (feature : Str) (body : Str) : List Str :=
  (changeEntry f feature :: cleanedChanges body).take 3

/-- Lines 632-642: rewrite the `## Recent Changes` section (pattern
`(## Recent Changes\n)(.*?)(\n\n|$)`, DOTALL) to the pruned list. -/
def recentStep (f : PlanFields) (feature : Str) (content : Str) : Str :=
  match splitFirst recentHd content with
  | none => content
  | some (_, rest) =>
    let body := (splitNN rest).1
    subNN recentHd (joinChar '\n' (newChangesList f feature body)) content

/-- `Last updated: ` followed by `\d{4}-\d{2}-\d{2}` starts here. -/
def dateAt : Str → Bool
  | a :: b :: c :: d :: '-' :: e :: f :: '-' :: g :: h :: _ =>
    isDigitChar a && isDigitChar b && isDigitChar c && isDigitChar d &&
      isDigitChar e && isDigitChar f && isDigitChar g && isDigitChar h
  | _ => false

def lastUpdatedHd : Str := ("Last updated: ").toList

/-- Whether the 24-character pattern `Last updated: \d{4}-\d{2}-\d{2}`
matches at the head of `s`. -/
def lastUpdatedAt (s : Str) : Bool :=
  lastUpdatedHd.isPrefixOf s && dateAt (s.drop 14)

/-- Fuel-driven `re.sub(r'Last updated: \d{4}-\d{2}-\d{2}',
f'Last updated: {today}', content)` (lines 645-646): every match (24
characters) is replaced; scanning advances one character otherwise. -/
def dateStepF (today : Str) : Nat → Str → Str
  | 0, s => s
  | _ + 1, [] => []
  | fuel + 1, c :: rest =>
    if lastUpdatedAt (c :: rest) then
      (lastUpdatedHd ++ today) ++ dateStepF today fuel (rest.drop 23)
    else c :: dateStepF today fuel rest

/-- Wrapper with always-sufficient fuel. -/
def dateStep (today s : Str) : Str :=
  dateStepF today (s.length + 1) s

/-- The whole existing-file branch of `update_agent_file` (lines 570-649):
tech section, project structure, commands, recent changes, date — in source
order.  `today` stands for `datetime.now().strftime('%Y-%m-%d')`. -/
def update_agent_file_existing (f : PlanFields) (feature today content : Str) :
    Str :=
  dateStep today
    (recentStep f feature
      (commandsStep f
        (structStep f.projectType
          (techStep f feature content))))

/-! ### Helper lemmas -/

lemma if_gt_eq_max (n h : Nat) : (if n > h then n else h) = max h n := by
  split <;> omega

lemma nextNum_foldl_eq (es : List (Str × Bool)) (h : Nat) :
    es.foldl
      (fun highest e =>
        if e.2 then
          match parseLeadingNat? e.1 with
          | some number => if number > highest then number else highest
          | none => highest
        else highest)
      h
    = max h
        (((((es.filter (fun e => e.2)).map (fun e => e.1)).filterMap
          parseLeadingNat?)).foldr max 0) := by
  induction es generalizing h with
  | nil => simp
  | cons e es ih =>
    obtain ⟨nm, d⟩ := e
    cases d with
    | false => simp [ih]
    | true =>
      cases hp : parseLeadingNat? nm with
      | none =>
        rw [List.foldl_cons, ih]
        simp [hp]
      | some n =>
        rw [List.foldl_cons, ih]
        simp [hp, if_gt_eq_max]
        omega

lemma natCharsF_fuel_inv : ∀ (n f1 f2 : Nat), n < f1 → n < f2 →
    natCharsF f1 n = natCharsF f2 n := by
  intro n
  induction n using Nat.strong_induction_on with
  | _ n ih =>
    intro f1 f2 h1 h2
    obtain ⟨a, rfl⟩ : ∃ a, f1 = a + 1 := ⟨f1 - 1, by omega⟩
    obtain ⟨b, rfl⟩ : ∃ b, f2 = b + 1 := ⟨f2 - 1, by omega⟩
    by_cases hn : n < 10
    · simp [natCharsF, hn]
    · simp only [natCharsF, if_neg hn]
      have hd : n / 10 < n := Nat.div_lt_self (by omega) (by omega)
      rw [ih (n / 10) hd a b (by omega) (by omega)]

lemma natChars_lt10 {n : Nat} (h : n < 10) : natChars n = [digitChar n] := by
  simp [natChars, natCharsF, h]

lemma natChars_step {n : Nat} (h : ¬ n < 10) :
    natChars n = natChars (n / 10) ++ [digitChar (n % 10)] := by
  have hd : n / 10 < n := Nat.div_lt_self (by omega) (by omega)
  have h1 : natChars n = natCharsF n (n / 10) ++ [digitChar (n % 10)] := by
    show (if n < 10 then [digitChar n]
      else natCharsF n (n / 10) ++ [digitChar (n % 10)]) = _
    rw [if_neg h]
  rw [h1, natCharsF_fuel_inv (n / 10) n (n / 10 + 1) hd (by omega)]
  rfl

lemma natChars_length_le_three {n : Nat} (h : n < 1000) :
    (natChars n).length ≤ 3 := by
  by_cases h1 : n < 10
  · simp [natChars_lt10 h1]
  · rw [natChars_step h1]
    by_cases h2 : n / 10 < 10
    · simp [natChars_lt10 h2]
    · rw [natChars_step h2]
      have h3 : n / 10 / 10 < 10 := by omega
      simp [natChars_lt10 h3]

lemma pad3_length_of_lt {n : Nat} (h : n < 1000) : (pad3 n).length = 3 := by
  have hl := natChars_length_le_three h
  unfold pad3
  by_cases hc : (natChars n).length < 3
  · simp only [if_pos hc, List.length_append, List.length_replicate]
    omega
  · simp only [if_neg hc]
    omega

lemma natChars_length_ge_four {n : Nat} (h : 1000 ≤ n) :
    4 ≤ (natChars n).length := by
  have h1 : ¬ n < 10 := by omega
  have h2 : ¬ n / 10 < 10 := by omega
  have h3 : ¬ n / 10 / 10 < 10 := by omega
  have hp : 1 ≤ (natChars (n / 10 / 10 / 10)).length := by
    by_cases hx : n / 10 / 10 / 10 < 10
    · simp [natChars_lt10 hx]
    · rw [natChars_step hx]
      simp
  rw [natChars_step h1, natChars_step h2, natChars_step h3]
  simp only [List.length_append, List.length_cons, List.length_singleton]
  omega

lemma natChars_mem_digit : ∀ (n : Nat), ∀ c ∈ natChars n, ∃ d, d < 10 ∧ c = digitChar d := by
  intro n
  induction n using Nat.strong_induction_on with
  | _ n ih =>
    intro c hc
    by_cases hn : n < 10
    · rw [natChars_lt10 hn] at hc
      simp at hc
      exact ⟨n, hn, hc⟩
    · rw [natChars_step hn] at hc
      rw [List.mem_append] at hc
      rcases hc with hc | hc
      · exact ih (n / 10) (Nat.div_lt_self (by omega) (by omega)) c hc
      · simp at hc
        exact ⟨n % 10, Nat.mod_lt _ (by omega), hc⟩

lemma digitChar_ne_dash {d : Nat} (h : d < 10) : digitChar d ≠ '-' := by
  interval_cases d <;> decide

/-! ### The claims -/

/-- C2: for every directory listing, `get_next_feature_number` returns one
more than the maximum numeric prefix parsed from the names of the immediate
subdirectories that start with one or more digits, and returns 1 when
`specs/` is absent or contains no digit-prefixed subdirectory;
non-digit-prefixed subdirectories are ignored.  In particular, a `specs/`
containing `{001-a, 003-b, x-y}` yields 4. -/
theorem C2_next_feature_number :
    (∀ st : St, get_next_feature_number st = spec_next_feature_number st) ∧
    get_next_feature_number
      ⟨some [(("001-a").toList, true), (("003-b").toList, true),
             (("x-y").toList, true)], none⟩ = 4 ∧
    (∀ cf : Option Str, get_next_feature_number ⟨none, cf⟩ = 1) ∧
    (∀ cf : Option Str, get_next_feature_number ⟨some [], cf⟩ = 1) := by
  refine ⟨?_, by decide, fun cf => rfl, fun cf => rfl⟩
  intro st
  obtain ⟨sl, cf⟩ := st
  cases sl with
  | none => rfl
  | some es =>
    simp only [get_next_feature_number, spec_next_feature_number,
      nextNum_foldl_eq]
    omega

/-- C3: for every non-blank description, `create_new_feature` derives the
slug exactly as the spec describes (lowercase, replace runs of
non-`[a-z0-9]` by one hyphen, strip hyphens, keep the first up to 3
non-empty tokens) and names the feature `NNN-slug` with the zero-padded
number.  In particular `"User Auth System!!"` yields `user-auth-system`. -/
theorem C3_slug_and_feature_name :
    (∀ desc : Str, create_slug desc = slug_spec desc) ∧
    (∀ (st : St) (desc : Str), pyStrip desc ≠ [] →
      ∃ p, create_new_feature st desc = .ok p ∧
        p.2.name = pad3 (get_next_feature_number (ensureSpecs st)) ++
          '-' :: slug_spec desc ∧
        p.2.num = pad3 (get_next_feature_number (ensureSpecs st))) ∧
    create_slug ("User Auth System!!").toList = ("user-auth-system").toList ∧
    (∀ n : Nat, n < 1000 → (pad3 n).length = 3) := by
  refine ⟨create_slug_eq_slug_spec, ?_, by decide, ?_⟩
  · intro st desc h
    unfold create_new_feature
    rw [if_neg h]
    exact ⟨_, rfl, by simp [mkFeatureName, create_slug_eq_slug_spec], rfl⟩
  · intro n hn
    exact pad3_length_of_lt hn

/-- Witness for C3 at `st = ⟨none, none⟩`, `desc = "User Auth System!!"`. -/
theorem C3_witness :
    ∃ p, create_new_feature ⟨none, none⟩ (("User Auth System!!").toList) =
        .ok p ∧
      p.2.name = pad3 (get_next_feature_number
          (ensureSpecs ⟨none, none⟩)) ++
        '-' :: slug_spec (("User Auth System!!").toList) ∧
      p.2.num = pad3 (get_next_feature_number (ensureSpecs ⟨none, none⟩)) :=
  C3_slug_and_feature_name.2.1 ⟨none, none⟩ (("User Auth System!!").toList)
    (by decide)

/-- C5: for every empty or whitespace-only feature description,
`FeatureManager.create_new_feature` fails with `ValueError` before any side
effect, and the `SpecKit.create_new_feature` command leaves the specs tree,
the config and the filesystem unchanged and exits 1. -/
theorem C5_blank_description_rejected (st : St) (fs : FS) (root desc : Str)
    (h : pyStrip desc = []) :
    create_new_feature st desc =
      .error ("Feature description cannot be empty").toList ∧
    speckit_create_new_feature st fs root desc = (st, fs, 1) := by
  constructor
  · unfold create_new_feature
    rw [if_pos h]
  · unfold speckit_create_new_feature
    rw [if_pos h]

/-- Witness for C5 at `desc = "   "`. -/
theorem C5_witness :
    create_new_feature ⟨none, none⟩ (("   ").toList) =
      .error ("Feature description cannot be empty").toList ∧
    speckit_create_new_feature ⟨none, none⟩ (fun _ => none) (("r").toList)
      (("   ").toList) = (⟨none, none⟩, (fun _ => none), 1) :=
  C5_blank_description_rejected ⟨none, none⟩ (fun _ => none) (("r").toList)
    (("   ").toList) (by decide)

/-- C6: for every feature name that fails the `^[0-9]{3}-` check or whose
directory under `specs/` does not exist, `set-current-feature` exits 1 and
leaves the state (including the config's current feature) unchanged. -/
theorem C6_set_current_feature_invalid (st : St) (name : Str)
    (h : check_feature_name name = false ∨ featureDirExists st name = false) :
    speckit_set_current_feature st name = (st, 1) := by
  rcases h with h | h
  · unfold speckit_set_current_feature
    rw [if_pos h]
  · by_cases hc : check_feature_name name = false
    · unfold speckit_set_current_feature
      rw [if_pos hc]
    · unfold speckit_set_current_feature
      rw [if_neg hc, if_pos h]

/-- Witness for C6 at the non-matching name `"abc"`. -/
theorem C6_witness :
    speckit_set_current_feature ⟨some [], some (("001-x").toList)⟩
      (("abc").toList) = (⟨some [], some (("001-x").toList)⟩, 1) :=
  C6_set_current_feature_invalid ⟨some [], some (("001-x").toList)⟩
    (("abc").toList) (Or.inl (by decide))

/-- C7 counterexample: with the template missing and a non-empty file already
at the target path, `copy_template` returns `false` but does **not** create
an empty file at the target — `Path.touch` leaves the old contents intact, so
the claim's "creates an empty file at the target path" is false. -/
theorem C7_counterexample :
    (copy_template
        (fun q => if q = ("t.md").toList then some (("old").toList) else none)
        ("root").toList ("spec-template.md").toList
        ("t.md").toList).2.1 = false ∧
    (copy_template
        (fun q => if q = ("t.md").toList then some (("old").toList) else none)
        ("root").toList ("spec-template.md").toList
        ("t.md").toList).1 ("t.md").toList = some (("old").toList) ∧
    ("old").toList ≠ ([] : Str) := by
  refine ⟨rfl, rfl, by decide⟩

/-- C7 (amended): `copy_template` copies the template's bytes verbatim to
the target (overwriting) and returns true when the template exists;
otherwise it warns on the error stream, ensures a file exists at the target
(creating an empty one only when the target was absent; a pre-existing
target keeps its contents), and returns false.  In both cases the target
exists after the call. -/
theorem C7_amended (fs : FS) (root tname target : Str) :
    ((copy_template fs root tname target).1 target).isSome = true ∧
    (∀ bytes,
      fs (templatePath root tname) = some bytes →
        copy_template fs root tname target =
          (fsUpdate fs target bytes, true, []) ∧
        (copy_template fs root tname target).1 target = some bytes) ∧
    (fs (templatePath root tname) = none →
      (copy_template fs root tname target).2.1 = false ∧
      (copy_template fs root tname target).2.2 ≠ [] ∧
      (copy_template fs root tname target).1 target =
        some (match fs target with | some old => old | none => [])) := by
  refine ⟨?_, ?_, ?_⟩
  · unfold copy_template
    cases htpl : fs (templatePath root tname) with
    | some bytes => simp [fsUpdate]
    | none =>
      unfold fsTouch
      cases htgt : fs target with
      | some old => simp [htgt]
      | none => simp [fsUpdate]
  · intro bytes hb
    unfold copy_template
    rw [hb]
    exact ⟨rfl, by simp [fsUpdate]⟩
  · intro hn
    unfold copy_template
    rw [hn]
    refine ⟨rfl, by simp, ?_⟩
    unfold fsTouch
    cases htgt : fs target with
    | some old => simp [htgt]
    | none => simp [fsUpdate]

/-- Witness for C7 (amended): template present case and template missing
case at concrete inputs. -/
theorem C7_witness :
    copy_template
        (fun q => if q = ("r/templates/a.md").toList
          then some (("body").toList) else none)
        ("r").toList ("a.md").toList ("t.md").toList =
      (fsUpdate
        (fun q => if q = ("r/templates/a.md").toList
          then some (("body").toList) else none)
        ("t.md").toList ("body").toList, true, []) ∧
    ((copy_template (fun _ => none) ("r").toList ("a.md").toList
        ("t.md").toList).1 ("t.md").toList).isSome = true :=
  ⟨((C7_amended
      (fun q => if q = ("r/templates/a.md").toList
        then some (("body").toList) else none)
      ("r").toList ("a.md").toList ("t.md").toList).2.1
      (("body").toList) (by decide)).1,
   (C7_amended (fun _ => none) ("r").toList ("a.md").toList
      ("t.md").toList).1⟩

/-- C9 counterexample: the claim says *every* one of the five fields whose
value contains `NEEDS CLARIFICATION` is treated as absent, but the code
applies no such check to `Project Type` (lines 506-509): a plan whose
`**Project Type**:` value contains the marker still yields that value. -/
theorem C9_counterexample :
    containsSub clarificationMarker
      ((extract_plan_fields
        (("**Project Type**: NEEDS CLARIFICATION (web or cli)\n").toList)).projectType)
      = true ∧
    (extract_plan_fields
        (("**Project Type**: NEEDS CLARIFICATION (web or cli)\n").toList)).projectType
      = ("NEEDS CLARIFICATION (web or cli)").toList := by
  exact ⟨by decide, by decide⟩

/-- C9 (amended): the extraction matches lines `**Field**: value` for
Language/Version, Primary Dependencies, Testing, Storage and Project Type;
a Language/Version, Primary Dependencies, Testing or Storage value
containing `NEEDS CLARIFICATION` is treated as absent, and a Storage value
containing `N/A` is treated as absent — but the Project Type value is used
as matched (stripped) even when it contains the marker. -/
theorem C9_amended (content : Str) :
    (∀ v, fieldLine? (("Language/Version").toList)
        (splitOnChar '\n' content) = some v →
      containsSub clarificationMarker v = true →
      (extract_plan_fields content).lang = []) ∧
    (∀ v, fieldLine? (("Primary Dependencies").toList)
        (splitOnChar '\n' content) = some v →
      containsSub clarificationMarker v = true →
      (extract_plan_fields content).framework = []) ∧
    (∀ v, fieldLine? (("Testing").toList)
        (splitOnChar '\n' content) = some v →
      containsSub clarificationMarker v = true →
      (extract_plan_fields content).testing = []) ∧
    (∀ v, fieldLine? (("Storage").toList)
        (splitOnChar '\n' content) = some v →
      containsSub clarificationMarker v = true →
      (extract_plan_fields content).db = []) ∧
    (∀ v, fieldLine? (("Storage").toList)
        (splitOnChar '\n' content) = some v →
      containsSub (("N/A").toList) v = true →
      (extract_plan_fields content).db = []) ∧
    (∀ v, fieldLine? (("Project Type").toList)
        (splitOnChar '\n' content) = some v →
      (extract_plan_fields content).projectType = pyStrip v) := by
  refine ⟨?_, ?_, ?_, ?_, ?_, ?_⟩
  · intro v hv hm
    simp only [extract_plan_fields]
    rw [hv]
    simp [hm]
  · intro v hv hm
    simp only [extract_plan_fields]
    rw [hv]
    simp [hm]
  · intro v hv hm
    simp only [extract_plan_fields]
    rw [hv]
    simp [hm]
  · intro v hv hm
    simp only [extract_plan_fields]
    rw [hv]
    simp [hm]
  · intro v hv hm
    simp only [extract_plan_fields]
    rw [hv]
    simp at hm
    simp [hm]
  · intro v hv
    simp only [extract_plan_fields]
    rw [hv]

/-- Witness for C9 (amended): concrete plans exercising the marker rules. -/
theorem C9_witness :
    (extract_plan_fields
      (("**Language/Version**: NEEDS CLARIFICATION\n").toList)).lang = [] ∧
    (extract_plan_fields (("**Storage**: N/A\n").toList)).db = [] := by
  constructor
  · exact (C9_amended (("**Language/Version**: NEEDS CLARIFICATION\n").toList)).1
      (("NEEDS CLARIFICATION").toList) (by decide) (by decide)
  · exact (C9_amended (("**Storage**: N/A\n").toList)).2.2.2.2.1
      (("N/A").toList) (by decide) (by decide)

/-- C10: whenever the next feature number is at least 1000, the created
feature's numeric prefix is longer than 3 digits (`%03d` pads but never
truncates), and `check_feature_name` rejects the resulting name, so every
subsequent command that validates the current feature name fails on the
feature just created. -/
theorem C10_large_numbers_rejected (st : St) (desc : Str)
    (h : 1000 ≤ get_next_feature_number (ensureSpecs st))
    (hd : pyStrip desc ≠ []) :
    ∃ p, create_new_feature st desc = .ok p ∧
      3 < p.2.num.length ∧
      p.2.name = natChars (get_next_feature_number (ensureSpecs st)) ++
        '-' :: create_slug desc ∧
      check_feature_name p.2.name = false := by
  have hpad : pad3 (get_next_feature_number (ensureSpecs st)) =
      natChars (get_next_feature_number (ensureSpecs st)) := by
    unfold pad3
    rw [if_neg]
    have := natChars_length_ge_four h
    omega
  have hlen : 4 ≤ (natChars (get_next_feature_number (ensureSpecs st))).length :=
    natChars_length_ge_four h
  unfold create_new_feature
  rw [if_neg hd]
  refine ⟨_, rfl, ?_, ?_, ?_⟩
  · show 3 < (pad3 (get_next_feature_number (ensureSpecs st))).length
    rw [hpad]
    omega
  · show mkFeatureName (get_next_feature_number (ensureSpecs st)) desc = _
    rw [mkFeatureName, hpad]
  · show check_feature_name
      (mkFeatureName (get_next_feature_number (ensureSpecs st)) desc) = false
    rw [mkFeatureName, hpad]
    obtain ⟨a, b, c, d, t, hx⟩ :
        ∃ a b c d t, natChars (get_next_feature_number (ensureSpecs st)) =
          a :: b :: c :: d :: t := by
      cases hnc : natChars (get_next_feature_number (ensureSpecs st)) with
      | nil => rw [hnc] at hlen; simp at hlen
      | cons a l1 =>
        cases l1 with
        | nil => rw [hnc] at hlen; simp at hlen
        | cons b l2 =>
          cases l2 with
          | nil => rw [hnc] at hlen; simp at hlen
          | cons c l3 =>
            cases l3 with
            | nil => rw [hnc] at hlen; simp at hlen
            | cons d t => exact ⟨a, b, c, d, t, rfl⟩
    have hdd : d ∈ natChars (get_next_feature_number (ensureSpecs st)) := by
      rw [hx]; simp
    obtain ⟨dd, hdd10, hddq⟩ :=
      natChars_mem_digit (get_next_feature_number (ensureSpecs st)) d hdd
    have hne : d ≠ '-' := by
      rw [hddq]; exact digitChar_ne_dash hdd10
    rw [hx]
    show check_feature_name (a :: b :: c :: d :: (t ++ '-' :: create_slug desc))
      = false
    unfold check_feature_name
    rw [if_neg (by simp)]
    have : (d == '-') = false := by
      simp [hne]
    simp [this]

/-- Witness for C10: a `specs/` tree already containing `1200-x` forces the
next number 1201; the created feature `1201-auth` is then rejected by the
name check. -/
theorem C10_witness :
    ∃ p, create_new_feature ⟨some [((("1200-x").toList), true)], none⟩
        (("auth").toList) = .ok p ∧
      3 < p.2.num.length ∧
      p.2.name = natChars (get_next_feature_number
        (ensureSpecs ⟨some [((("1200-x").toList), true)], none⟩)) ++
        '-' :: create_slug (("auth").toList) ∧
      check_feature_name p.2.name = false :=
  C10_large_numbers_rejected ⟨some [((("1200-x").toList), true)], none⟩
    (("auth").toList) (by decide) (by decide)

/-- C4: when the `## Recent Changes` section is matched, the patch prepends
the new change entry and truncates to the 3 most recent, most recent first;
in particular with at least 3 existing entries (inserting a 4th) exactly 3
remain. -/
theorem C4_recent_changes_cap :
    (∀ (f : PlanFields) (feature body : Str),
      3 ≤ (cleanedChanges body).length →
        newChangesList f feature body =
          changeEntry f feature :: (cleanedChanges body).take 2 ∧
        (newChangesList f feature body).length = 3) ∧
    (∀ (f : PlanFields) (feature body : Str),
      (newChangesList f feature body).head? = some (changeEntry f feature) ∧
      newChangesList f feature body =
        (changeEntry f feature :: cleanedChanges body).take 3) ∧
    (∀ (f : PlanFields) (feature content pre rest : Str),
      splitFirst recentHd content = some (pre, rest) →
      recentStep f feature content =
        subNN recentHd
          (joinChar '\n' (newChangesList f feature (splitNN rest).1))
          content) := by
  refine ⟨?_, ?_, ?_⟩
  · intro f feature body h
    constructor
    · simp [newChangesList]
    · simp only [newChangesList, List.length_take, List.length_cons]
      omega
  · intro f feature body
    exact ⟨by simp [newChangesList], rfl⟩
  · intro f feature content pre rest hs
    unfold recentStep
    rw [hs]

/-- Witness for C4 at a section holding 3 entries already. -/
theorem C4_witness :
    newChangesList ⟨("L").toList, ("F").toList, [], [], []⟩ (("004-d").toList)
        (("- a\n- b\n- c").toList) =
      changeEntry ⟨("L").toList, ("F").toList, [], [], []⟩ (("004-d").toList)
        :: (cleanedChanges (("- a\n- b\n- c").toList)).take 2 ∧
    (newChangesList ⟨("L").toList, ("F").toList, [], [], []⟩
        (("004-d").toList) (("- a\n- b\n- c").toList)).length = 3 :=
  C4_recent_changes_cap.1 ⟨("L").toList, ("F").toList, [], [], []⟩
    (("004-d").toList) (("- a\n- b\n- c").toList) (by decide)

lemma subSecF_of_none {hd tl rep : Str} {s : Str}
    (h : splitFirst hd s = none) :
    ∀ fuel, subSecF hd tl rep fuel s = s := by
  intro fuel
  cases fuel with
  | zero => rfl
  | succ k => simp only [subSecF, h]

lemma subSec_unfold_once {hd tl rep s pre rest body post : Str}
    (h1 : splitFirst hd s = some (pre, rest))
    (h2 : splitFirst tl rest = some (body, post))
    (hu : splitFirst hd post = none) :
    subSec hd tl rep s = pre ++ rep ++ post := by
  unfold subSec
  show subSecF hd tl rep (s.length + 1) s = _
  simp only [subSecF, h1, h2]
  rw [subSecF_of_none hu]

/-- C8 counterexample: the claim requires a frontend line whenever the
extracted project type *mentions* "web", but the code (line 599) requires
the project type to be exactly `"web"`: with project type
`"web application"`, a structure block with no `frontend/` entry is left
unchanged. -/
theorem C8_counterexample :
    containsSub (("web").toList) (("web application").toList) = true ∧
    (searchSec structHd structTl
      (("## Project Structure\n```\nbackend/\ntests/\n```\n").toList)).isSome
      = true ∧
    containsSub (("frontend/").toList)
      (("## Project Structure\n```\nbackend/\ntests/\n```\n").toList) = false ∧
    structStep (("web application").toList)
        (("## Project Structure\n```\nbackend/\ntests/\n```\n").toList) =
      (("## Project Structure\n```\nbackend/\ntests/\n```\n").toList) ∧
    containsSub (("frontend/").toList)
      (structStep (("web application").toList)
        (("## Project Structure\n```\nbackend/\ntests/\n```\n").toList))
      = false := by
  exact ⟨by decide, by decide, by decide, by decide, by decide⟩

/-- C8 (amended): when the extracted project type is exactly `"web"`, the
whole file content contains no `frontend/`, and the fenced
`## Project Structure` block is matched (uniquely), the patch appends the
line `frontend/src/ # Web UI` to that block. -/
theorem C8_amended (content pre body post : Str)
    (hs : searchSec structHd structTl content = some (pre, body, post))
    (hf : containsSub (("frontend/").toList) content = false)
    (hu : splitFirst structHd post = none) :
    structStep (("web").toList) content =
      pre ++ (structHd ++ (body ++ frontendLine) ++ structTl) ++ post ∧
    frontendLine <:+: structStep (("web").toList) content := by
  obtain ⟨rest, h1, h2⟩ : ∃ rest,
      splitFirst structHd content = some (pre, rest) ∧
      splitFirst structTl rest = some (body, post) := by
    unfold searchSec at hs
    cases ha : splitFirst structHd content with
    | none => simp [ha] at hs
    | some pr =>
      obtain ⟨pre1, rest1⟩ := pr
      simp only [ha] at hs
      cases hb : splitFirst structTl rest1 with
      | none => simp [hb] at hs
      | some bp =>
        obtain ⟨body1, post1⟩ := bp
        simp only [hb] at hs
        cases hs
        exact ⟨rest1, rfl, hb⟩
  have hc : (("web").toList = ("web").toList ∧
      ¬(containsSub (("frontend/").toList) content = true)) :=
    ⟨rfl, fun hcon => by rw [hcon] at hf; exact Bool.noConfusion hf⟩
  have heq : structStep (("web").toList) content =
      pre ++ (structHd ++ (body ++ frontendLine) ++ structTl) ++ post := by
    unfold structStep
    rw [if_pos hc, hs]
    exact subSec_unfold_once h1 h2 hu
  refine ⟨heq, ?_⟩
  rw [heq]
  refine ⟨pre ++ structHd ++ body, structTl ++ post, ?_⟩
  simp [List.append_assoc]

/-- Witness for C8 (amended) on a one-block file. -/
theorem C8_witness :
    structStep (("web").toList)
        (("## Project Structure\n```\nsrc/\n```\nx").toList) =
      ([] : Str) ++ (structHd ++ ((("src/").toList) ++ frontendLine) ++
        structTl) ++ (("\nx").toList) ∧
    frontendLine <:+:
      structStep (("web").toList)
        (("## Project Structure\n```\nsrc/\n```\nx").toList) :=
  C8_amended (("## Project Structure\n```\nsrc/\n```\nx").toList) []
    (("src/").toList) (("\nx").toList) (by decide) (by decide) (by decide)

def c1Fields : PlanFields :=
  ⟨("Python 3.11").toList, ("FastAPI").toList, [], [], []⟩

def c1Content : Str :=
  ("# myproj\n\n## Active Technologies\n- Go 1.21 + Gin (000-x)\n\n## Commands\ncd src && make\n\n## Recent Changes\n- 000-x: Added Go 1.21 + Gin\n\nLast updated: 2025-01-01\n").toList

def c1Once : Str :=
  update_agent_file_existing c1Fields (("001-user-auth").toList)
    (("2025-01-02").toList) c1Content

def c1Twice : Str :=
  update_agent_file_existing c1Fields (("001-user-auth").toList)
    (("2025-01-02").toList) c1Once

/-- C1: patching the same agent context file twice with the same plan
content is **not** idempotent: the first run appends the Python command line
once, but the second run appends it again (the guard looks for a marker
comment `# Python 3.11` that is never written) and also prepends a duplicate
Recent Changes entry.  The second output differs from the first, with the
command string and the change entry each duplicated. -/
theorem C1_patch_not_idempotent :
    c1Once =
      ("# myproj\n\n## Active Technologies\n- Go 1.21 + Gin (000-x)\n- Python 3.11 + FastAPI (001-user-auth)\n\n## Commands\ncd src && make\ncd src && pytest && ruff check .\n\n## Recent Changes\n- 001-user-auth: Added Python 3.11 + FastAPI\n- 000-x: Added Go 1.21 + Gin\n\nLast updated: 2025-01-02\n").toList ∧
    c1Twice =
      ("# myproj\n\n## Active Technologies\n- Go 1.21 + Gin (000-x)\n- Python 3.11 + FastAPI (001-user-auth)\n\n## Commands\ncd src && make\ncd src && pytest && ruff check .\ncd src && pytest && ruff check .\n\n## Recent Changes\n- 001-user-auth: Added Python 3.11 + FastAPI\n- 001-user-auth: Added Python 3.11 + FastAPI\n- 000-x: Added Go 1.21 + Gin\n\nLast updated: 2025-01-02\n").toList ∧
    c1Twice ≠ c1Once ∧
    containsSub
      (("cd src && pytest && ruff check .\ncd src && pytest && ruff check .").toList)
      c1Twice = true ∧
    containsSub
      (("cd src && pytest && ruff check .\ncd src && pytest && ruff check .").toList)
      c1Once = false ∧
    containsSub
      (("- 001-user-auth: Added Python 3.11 + FastAPI\n- 001-user-auth: Added Python 3.11 + FastAPI").toList)
      c1Twice = true := by
  set_option maxRecDepth 100000 in
  exact ⟨by decide, by decide, by decide, by decide, by decide, by decide⟩

end SpecKit
